import Mathlib

/-!
Verification of the ClaudeCodeMonitor session manager and streaming event
translator. The definitions below are a shallow embedding of the Rust source
(`src-tauri/src/backend/claude_cli.rs`, `src-tauri/src/claude.rs`, and
`src-tauri/src/bin/codex_monitor_daemon.rs`). Processes are identified by
numeric handles; process-level effects (flushing stdin, killing a child,
writing a line) are recorded as explicit actions, and the outcome of an OS
kill call is supplied by an oracle so that error paths can be analysed.
-/

namespace CCM

/-! ### String helpers

Rust string primitives (`trim`, `starts_with`, slicing, `split`,
`to_lowercase`, integer parsing) are modelled by structurally recursive
functions over the character list of a `String`, mirroring their behaviour on
the inputs the program feeds them. `Char.toLower` is ASCII-only, matching the
ASCII strings the program compares.
-/

/-- Drop leading and trailing whitespace, as Rust `str::trim`. -/
def trimChars (l : List Char) : List Char :=
  ((l.dropWhile Char.isWhitespace).reverse.dropWhile Char.isWhitespace).reverse

/-- Rust `str::trim` on a `String`. -/
def strTrim (s : String) : String := ⟨trimChars s.data⟩

/-- Rust `str::is_empty`. -/
def strIsEmpty (s : String) : Bool := s.data.isEmpty

/-- Rust `haystack.starts_with(needle)`. -/
def strStartsWith (haystack needle : String) : Bool :=
  needle.data.isPrefixOf haystack.data

/-- Byte-slicing `s[p.len()..]` in the case the program uses it: `p` is known
to be a prefix of `s`, so dropping `p.length` characters removes exactly the
prefix `p`. -/
def strDrop (s : String) (n : Nat) : String := ⟨s.data.drop n⟩

/-- Character count used as the slice offset (valid because the sliced string
is a prefix, see `strDrop`). -/
def strLen (s : String) : Nat := s.data.length

/-- Rust `str::to_lowercase` (ASCII range; the program only matches ASCII). -/
def strToLower (s : String) : String := ⟨s.data.map Char.toLower⟩

/-- `needle` occurs as a contiguous run inside `haystack`. -/
def charsInfix (needle : List Char) : List Char → Bool
  | [] => needle.isEmpty
  | h :: t => needle.isPrefixOf (h :: t) || charsInfix needle t

/-- Rust `haystack.contains(needle)` for substring search. -/
def strContains (haystack needle : String) : Bool :=
  charsInfix needle.data haystack.data

/-- Split on a single character, as Rust `str::split(c)`. -/
def splitOnCharAux (c : Char) : List Char → List (List Char)
  | [] => [[]]
  | ch :: rest =>
    match splitOnCharAux c rest with
    | [] => if ch = c then [[], []] else [[ch]]
    | g :: gs => if ch = c then [] :: g :: gs else (ch :: g) :: gs

/-- Rust `str::split(c)` returning strings. -/
def splitOnChar (c : Char) (s : String) : List String :=
  (splitOnCharAux c s.data).map fun l => ⟨l⟩

/-- Rust `Vec::join(":")` / `format!` interleaving with a separator. -/
def joinWith (sep : String) : List String → String
  | [] => ""
  | [x] => x
  | x :: xs => x ++ sep ++ joinWith sep xs

/-- Digits of a natural number, fuel-bounded so the definition is structural
and kernel-evaluable. -/
def natDigits : Nat → Nat → List Char
  | 0, _ => []
  | fuel + 1, n =>
    if n < 10 then [Char.ofNat (48 + n)]
    else natDigits fuel (n / 10) ++ [Char.ofNat (48 + n % 10)]

/-- Decimal rendering of a natural number (Rust `format!` of a counter). -/
def natToStr (n : Nat) : String := ⟨natDigits (n + 1) n⟩

/-- Parse a digit string, as the all-digit case of Rust `str::parse::<i64>`. -/
def parseNatChars : List Char → Option Nat
  | [] => none
  | l => parseNatAux l 0
where
  parseNatAux : List Char → Nat → Option Nat
    | [], acc => some acc
    | c :: rest, acc =>
      if c.isDigit then parseNatAux rest (acc * 10 + (c.toNat - 48)) else none

/-- Rust `str::parse::<i64>`: optional sign then digits (the i64 range bound
is not modelled; the program feeds token counts). -/
def parseInt (s : String) : Option Int :=
  match s.data with
  | '-' :: rest => (parseNatChars rest).map fun n => -(n : Int)
  | '+' :: rest => (parseNatChars rest).map fun n => (n : Int)
  | l => (parseNatChars l).map fun n => (n : Int)

/-! ### JSON model (`serde_json::Value`)

Numbers are modelled as integers: every number the verified code paths read
is consumed through `as_i64`/`as_u64`, and objects are association lists in
insertion order. -/

inductive Json where
  | null
  | bool (b : Bool)
  | num (n : Int)
  | str (s : String)
  | arr (xs : List Json)
  | obj (fields : List (String × Json))

/-- `Value::get(key)`: field lookup on objects, `None` otherwise. -/
def Json.get (j : Json) (key : String) : Option Json :=
  match j with
  | .obj fields => lookupField fields key
  | _ => none
where
  lookupField : List (String × Json) → String → Option Json
    | [], _ => none
    | (k, v) :: rest, key => if k = key then some v else lookupField rest key

/-- `Value::as_str`. -/
def Json.asStr : Json → Option String
  | .str s => some s
  | _ => none

/-- `Value::as_array`. -/
def Json.asArr : Json → Option (List Json)
  | .arr xs => some xs
  | _ => none

/-- `Value::as_i64` (integral numbers only in this model). -/
def Json.asInt : Json → Option Int
  | .num n => some n
  | _ => none

/-- `Value::as_u64`. -/
def Json.asNat : Json → Option Nat
  | .num n => if 0 ≤ n then some n.toNat else none
  | _ => none

/-- `Value::as_bool`. -/
def Json.asBool : Json → Option Bool
  | .bool b => some b
  | _ => none

/-- First of two optional values, as `opt.or_else(...)` chains. -/
def orOpt (a b : Option Json) : Option Json :=
  match a with
  | some v => some v
  | none => b

/-- `value.get(k1).or_else(|| value.get(k2))`. -/
def Json.getOr (j : Json) (k1 k2 : String) : Option Json :=
  orOpt (j.get k1) (j.get k2)

mutual
/-- Model of serde serialization (`Value::to_string` and the pretty-printing
fallback); layout whitespace and string escaping are abstracted away, which
the verified claims never inspect. -/
def Json.render : Json → String
  | .null => "null"
  | .bool true => "true"
  | .bool false => "false"
  | .num n => if 0 ≤ n then natToStr n.toNat else "-" ++ natToStr (-n).toNat
  | .str s => "\"" ++ s ++ "\""
  | .arr xs => "[" ++ Json.renderList xs ++ "]"
  | .obj fields => "\x7b" ++ Json.renderFields fields ++ "\x7d"

def Json.renderList : List Json → String
  | [] => ""
  | [x] => Json.render x
  | x :: xs => Json.render x ++ "," ++ Json.renderList xs

def Json.renderFields : List (String × Json) → String
  | [] => ""
  | [(k, v)] => "\"" ++ k ++ "\":" ++ Json.render v
  | (k, v) :: rest => "\"" ++ k ++ "\":" ++ Json.render v ++ "," ++ Json.renderFields rest
end

/-! ### Association-list maps

`HashMap`/`HashSet` state is modelled by association lists; `mapInsert`
replaces any previous binding, as `HashMap::insert` does. -/

/-- `HashMap::get`. -/
def mapLookup {α : Type} : List (String × α) → String → Option α
  | [], _ => none
  | (k, v) :: rest, key => if k = key then some v else mapLookup rest key

/-- `HashMap::remove` (the removed value, when needed, is read before). -/
def mapRemove {α : Type} : List (String × α) → String → List (String × α)
  | [], _ => []
  | (k, v) :: rest, key =>
    if k = key then mapRemove rest key else (k, v) :: mapRemove rest key

/-- `HashMap::insert`. -/
def mapInsert {α : Type} (m : List (String × α)) (key : String) (v : α) :
    List (String × α) :=
  (key, v) :: mapRemove m key

/-! ### Session store (`backend/claude_cli.rs`)

The per-workspace state: the legacy per-turn process table and the map of
persistent per-thread sessions. Child processes and their stdin handles are
numeric ids; effects on them are recorded in an action trace, and the outcome
of `Child::kill` is given by an oracle of type `Nat → KillRes`. -/

/-- Outcome of `Child::kill().await`: success, the `ErrorKind::InvalidInput`
error that tokio returns for an already-exited child, or any other OS error
(carrying its display message). -/
inductive KillRes where
  | ok
  | errInvalidInput
  | errOther (msg : String)
deriving DecidableEq

/-- Effects performed on process handles, in order. -/
inductive ProcAction where
  | flush (stdin : Nat)
  | kill (child : Nat)
  | write (stdin : Nat) (message : String)
deriving DecidableEq

/-- `ActiveTurn` (legacy per-turn process table entry). The shared
`Arc<Mutex<Child>>` handle holds no stdin. -/
structure ActiveTurn where
  turn_id : String
  child : Nat
deriving DecidableEq

/-- `PersistentSession`: one CLI process per thread. -/
structure PersistentSession where
  stdin : Nat
  child : Nat
  pending_turn_id : Option String
  permission_mode : Option String
  model : Option String
deriving DecidableEq

/-- `WorkspaceSession`: the two process tables (the workspace entry, binary
path and the init lock carry no state relevant to the verified operations;
the lock only serialises callers). -/
structure WorkspaceSession where
  active_turns : List (String × ActiveTurn)
  persistent_sessions : List (String × PersistentSession)
deriving DecidableEq

/-- `WorkspaceSession::has_persistent_session`. -/
def has_persistent_session (st : WorkspaceSession) (thread_id : String) : Bool :=
  (mapLookup st.persistent_sessions thread_id).isSome

/-- `WorkspaceSession::set_persistent_session`. -/
def set_persistent_session (st : WorkspaceSession) (thread_id : String)
    (stdin child : Nat) (permission_mode model : Option String) : WorkspaceSession :=
  let s : PersistentSession := ⟨stdin, child, none, permission_mode, model⟩
  { st with persistent_sessions := mapInsert st.persistent_sessions thread_id s }

/-- `WorkspaceSession::get_persistent_session_permission_mode`. -/
def get_persistent_session_permission_mode (st : WorkspaceSession)
    (thread_id : String) : Option String :=
  (mapLookup st.persistent_sessions thread_id).bind fun s => s.permission_mode

/-- `WorkspaceSession::get_persistent_session_model`. -/
def get_persistent_session_model (st : WorkspaceSession)
    (thread_id : String) : Option String :=
  (mapLookup st.persistent_sessions thread_id).bind fun s => s.model

/-- `WorkspaceSession::set_pending_turn_id` (no-op when the thread has no
persistent session, as `get_mut` finds nothing). -/
def set_pending_turn_id (st : WorkspaceSession) (thread_id turn_id : String) :
    WorkspaceSession :=
  match mapLookup st.persistent_sessions thread_id with
  | some s =>
    let s' := { s with pending_turn_id := some turn_id }
    { st with persistent_sessions := mapInsert st.persistent_sessions thread_id s' }
  | none => st

/-- `WorkspaceSession::take_pending_turn_id` (`Option::take` on the slot). -/
def take_pending_turn_id (st : WorkspaceSession) (thread_id : String) :
    Option String × WorkspaceSession :=
  match mapLookup st.persistent_sessions thread_id with
  | some s =>
    let s' := { s with pending_turn_id := none }
    (s.pending_turn_id,
     { st with persistent_sessions := mapInsert st.persistent_sessions thread_id s' })
  | none => (none, st)

/-- `WorkspaceSession::kill_persistent_session`: remove the session, flush its
stdin (result ignored), kill the child; any kill error is surfaced via `?`
after `map_err(to_string)` (the invalid-input message stands in for the OS
error display text). -/
def kill_persistent_session (killRes : Nat → KillRes) (st : WorkspaceSession)
    (thread_id : String) : Except String Unit × WorkspaceSession × List ProcAction :=
  match mapLookup st.persistent_sessions thread_id with
  | some s =>
    let st' := { st with persistent_sessions := mapRemove st.persistent_sessions thread_id }
    let trace := [ProcAction.flush s.stdin, ProcAction.kill s.child]
    match killRes s.child with
    | .ok => (.ok (), st', trace)
    | .errInvalidInput => (.error "invalid input", st', trace)
    | .errOther m => (.error m, st', trace)
  | none => (.ok (), st, [])

/-- `WorkspaceSession::interrupt_turn`: consult the legacy table first; a
matching turn id kills that per-turn process (tolerating
`ErrorKind::InvalidInput` as already exited), a mismatching id re-inserts the
entry untouched; with no legacy entry, fall through to
`kill_persistent_session`. -/
def interrupt_turn (killRes : Nat → KillRes) (st : WorkspaceSession)
    (thread_id turn_id : String) : Except String Unit × WorkspaceSession × List ProcAction :=
  match mapLookup st.active_turns thread_id with
  | some t =>
    if t.turn_id = turn_id then
      let st' := { st with active_turns := mapRemove st.active_turns thread_id }
      match killRes t.child with
      | .ok => (.ok (), st', [ProcAction.kill t.child])
      | .errInvalidInput => (.ok (), st', [ProcAction.kill t.child])
      | .errOther m => (.error m, st', [ProcAction.kill t.child])
    else
      (.ok (),
       { st with active_turns :=
           mapInsert (mapRemove st.active_turns thread_id) thread_id t },
       [])
  | none => kill_persistent_session killRes st thread_id

/-- `WorkspaceSession::send_message`: serialize the user message as one line
onto the stdin of the session (the trace records the message text; JSON framing
adds nothing the claims inspect). Fails with the session-not-found error when
the thread has no persistent session. -/
def send_message (st : WorkspaceSession) (thread_id message : String) :
    Except String Unit × WorkspaceSession × List ProcAction :=
  match mapLookup st.persistent_sessions thread_id with
  | some s => (.ok (), st, [ProcAction.write s.stdin message])
  | none => (.error ("No persistent session for thread " ++ thread_id), st, [])

/-! ### Process launcher PATH construction (`build_claude_path_env`)

The inherited `PATH` value, the home directory and the set of nvm node `bin`
directories found on disk are explicit parameters (they come from the
process environment and the filesystem). -/

/-- Rust `Path::parent` rendered back to a string via `to_string_lossy`:
strip trailing separators, then drop the final component; the root and the
empty path have no parent, a bare relative component has parent `""`. -/
def pathParent (s : String) : Option String :=
  if s.data.isEmpty then none
  else
    let trimmed := (s.data.reverse.dropWhile (· = '/')).reverse
    if trimmed.isEmpty then none
    else
      let afterLast := (trimmed.reverse.dropWhile (· ≠ '/')).dropWhile (· = '/')
      if afterLast.isEmpty then
        if s.data.head? = some '/' then some "/" else some ""
      else some ⟨afterLast.reverse⟩

/-- The fixed conventional installation directories appended first. -/
def fixedExtraDirs : List String :=
  ["/opt/homebrew/bin", "/usr/local/bin", "/usr/bin", "/bin", "/usr/sbin", "/sbin"]

/-- The home-derived directories appended when `HOME` is set, followed by the
nvm node `bin` directories discovered on disk. -/
def homeExtraDirs (home : Option String) (nvmBinDirs : List String) : List String :=
  match home with
  | some h =>
    [h ++ "/.local/bin", h ++ "/.local/share/mise/shims", h ++ "/.cargo/bin",
     h ++ "/.bun/bin"] ++ nvmBinDirs
  | none => []

/-- The parent directory of a non-blank explicit binary path, appended last. -/
def claudeBinParentDirs (claude_bin : Option String) : List String :=
  match claude_bin with
  | some bin =>
    if strIsEmpty (strTrim bin) then []
    else
      match pathParent bin with
      | some parent => [parent]
      | none => []
  | none => []

/-- The full ordered extras list built by `build_claude_path_env`. -/
def claudeExtraDirs (home : Option String) (nvmBinDirs : List String)
    (claude_bin : Option String) : List String :=
  fixedExtraDirs ++ homeExtraDirs home nvmBinDirs ++ claudeBinParentDirs claude_bin

/-- `build_claude_path_env`: split the inherited `PATH`, drop empty entries,
then push each extra directory not already present, and join with `:`. -/
def build_claude_path_env (pathEnv : String) (home : Option String)
    (nvmBinDirs : List String) (claude_bin : Option String) : Option String :=
  let paths := (splitOnChar ':' pathEnv).filter fun v => ¬ strIsEmpty v
  let extras := claudeExtraDirs home nvmBinDirs claude_bin
  let final := extras.foldl (fun acc e => if e ∈ acc then acc else acc ++ [e]) paths
  if final.isEmpty then none else some (joinWith ":" final)

/-! ### Session lifecycle controller (`claude.rs`)

`spawn_persistent_claude_session` and `ensure_persistent_session`. Process
creation itself (argument assembly, OS spawn) is outside the state model: a
successful spawn is represented by the ids of the new child and its stdin,
and the freshly generated v4 UUID is a parameter. -/

/-- The access-mode normalization used both to store the
fingerprint of a spawned session and to compare a requested mode against it. -/
def normalize_access_mode : String → String
  | "read-only" => "plan"
  | "full-access" => "bypassPermissions"
  | "current" => "default"
  | other => other

/-- Ids for a newly spawned process. -/
structure SpawnEnv where
  new_stdin : Nat
  new_child : Nat
deriving DecidableEq

/-- `spawn_persistent_claude_session`, restricted to its effect on the thread
session store: store the new process under the thread id with the normalized
permission-mode fingerprint and the requested model (stored unfiltered). -/
def spawn_persistent_claude_session (env : SpawnEnv) (st : WorkspaceSession)
    (thread_id : String) (model access_mode : Option String) : WorkspaceSession :=
  let stored_permission_mode := access_mode.map normalize_access_mode
  let stored_model := model
  set_persistent_session st thread_id env.new_stdin env.new_child
    stored_permission_mode stored_model

/-- `ensure_persistent_session`: under the init lock, normalize the requested
fingerprint, and for an existing session compare it against the stored one —
restart (kill then spawn) on any difference, otherwise only hand back the
fresh turn id. The background stdout/stderr readers are started alongside the
spawn and are modelled separately (`read_persistent_stdout`). -/
def ensure_persistent_session (killRes : Nat → KillRes) (env : SpawnEnv)
    (fresh_turn_id : String) (st : WorkspaceSession) (thread_id : String)
    (model access_mode : Option String) :
    Except String String × WorkspaceSession × List ProcAction :=
  let requested_permission_mode := access_mode.map normalize_access_mode
  let requested_model := model.filter fun m => ¬ strIsEmpty (strTrim m)
  match mapLookup st.persistent_sessions thread_id with
  | some s =>
    let current_mode := s.permission_mode.getD "default"
    let requested_mode := requested_permission_mode.getD "default"
    if current_mode ≠ requested_mode ∨ s.model ≠ requested_model then
      match kill_persistent_session killRes st thread_id with
      | (.ok _, st1, tr1) =>
        (.ok fresh_turn_id,
         spawn_persistent_claude_session env st1 thread_id model access_mode, tr1)
      | (.error e, st1, tr1) => (.error e, st1, tr1)
    else
      (.ok fresh_turn_id, st, [])
  | none =>
    (.ok fresh_turn_id,
     spawn_persistent_claude_session env st thread_id model access_mode, [])

/-- `build_prompt_with_images`: trim the text, and append the non-empty image
reference lines under an `Attached images:` header. -/
def build_prompt_with_images (text : String) (images : Option (List String)) : String :=
  let prompt := strTrim text
  match images with
  | none => prompt
  | some imgs =>
    let image_lines := imgs.filterMap fun image =>
      let trimmed := strTrim image
      if strIsEmpty trimmed then none else some ("[image] " ++ trimmed)
    if image_lines.isEmpty then prompt
    else
      (if strIsEmpty prompt then prompt else prompt ++ "\n\n")
        ++ "Attached images:\n" ++ joinWith "\n" image_lines

/-- `send_user_message`, from the point where the workspace session is in
hand: build the prompt, reject it when blank, otherwise ensure the persistent
session, store the pending turn id and write the message line. -/
def send_user_message (killRes : Nat → KillRes) (env : SpawnEnv)
    (fresh_turn_id : String) (st : WorkspaceSession) (thread_id : String)
    (text : String) (model access_mode : Option String)
    (images : Option (List String)) :
    Except String String × WorkspaceSession × List ProcAction :=
  let prompt := build_prompt_with_images text images
  if strIsEmpty (strTrim prompt) then (.error "empty user message", st, [])
  else
    match ensure_persistent_session killRes env fresh_turn_id st thread_id model access_mode with
    | (.ok turn_id, st1, tr1) =>
      let st2 := set_pending_turn_id st1 thread_id turn_id
      match send_message st2 thread_id prompt with
      | (.ok _, st3, tr2) => (.ok turn_id, st3, tr1 ++ tr2)
      | (.error e, st3, tr2) => (.error e, st3, tr1 ++ tr2)
    | (.error e, st1, tr1) => (.error e, st1, tr1)

/-! ### Daemon transport auth (`bin/codex_monitor_daemon.rs`)

Per-connection state for `handle_client`: the authenticated flag and whether
the connection has been subscribed to the event broadcast. One parsed request
line is handled at a time; responses are collected instead of written to the
socket, and authenticated method dispatch is an oracle. -/

/-- A response line queued for the connection. -/
inductive RpcOut where
  | errorResp (id : Nat) (message : String)
  | resultResp (id : Nat) (result : Json)

/-- Per-connection state created at accept time: without a configured token
the connection starts authenticated and subscribed. -/
structure ClientConn where
  authenticated : Bool
  subscribed : Bool
deriving DecidableEq

/-- Initial connection state (`authenticated = config.token.is_none()`, with
the immediate event subscription in that case). -/
def initClientConn (token : Option String) : ClientConn :=
  { authenticated := token.isNone, subscribed := token.isNone }

/-- `build_error_response`: replies only echo a numeric request id; an id-less
message gets no response. -/
def build_error_response (id : Option Nat) (message : String) : List RpcOut :=
  match id with
  | some i => [RpcOut.errorResp i message]
  | none => []

/-- `build_result_response`. -/
def build_result_response (id : Option Nat) (result : Json) : List RpcOut :=
  match id with
  | some i => [RpcOut.resultResp i result]
  | none => []

/-- `parse_auth_token`: a bare string or the `token` field of an object. -/
def parse_auth_token (params : Json) : Option String :=
  match params with
  | .str value => some value
  | .obj _ => (params.get "token").bind Json.asStr
  | _ => none

/-- One iteration of the `handle_client` read loop on a parsed message:
unauthenticated connections only accept `auth` with the configured token;
authenticated ones dispatch through the RPC table (an oracle here). -/
def handle_client_line (token : Option String)
    (rpc : String → Json → Except String Json) (conn : ClientConn)
    (message : Json) : ClientConn × List RpcOut :=
  let id := (message.get "id").bind Json.asNat
  let method := ((message.get "method").bind Json.asStr).getD ""
  let params := (message.get "params").getD .null
  if ¬ conn.authenticated then
    if method ≠ "auth" then
      (conn, build_error_response id "unauthorized")
    else
      let expected := token.getD ""
      let provided := (parse_auth_token params).getD ""
      if expected ≠ provided then
        (conn, build_error_response id "invalid token")
      else
        ({ authenticated := true, subscribed := true },
         build_result_response id (.obj [("ok", .bool true)]))
  else
    match rpc method params with
    | .ok result => (conn, build_result_response id result)
    | .error msg => (conn, build_error_response id msg)

/-! ### Token usage formatting (`format_token_usage`, `usage_number`) -/

/-- `usage_number`: first key whose value is an integer or an
integer-parsable string wins; otherwise 0. -/
def usage_number (map : List (String × Json)) : List String → Int
  | [] => 0
  | key :: rest =>
    match mapLookup map key with
    | some v =>
      match v.asInt with
      | some n => n
      | none =>
        match v.asStr with
        | some text =>
          match parseInt text with
          | some n => n
          | none => usage_number map rest
        | none => usage_number map rest
    | none => usage_number map rest

/-- The repeated `total`/`last` object of the token-usage payload. -/
def usage_totals_json (total input cached output reasoning : Int) : Json :=
  .obj [("totalTokens", .num total), ("inputTokens", .num input),
        ("cachedInputTokens", .num cached), ("outputTokens", .num output),
        ("reasoningOutputTokens", .num reasoning)]

/-- `format_token_usage`: sums the cache counters into `cachedInputTokens`,
adds them into `totalTokens`, and reads `modelContextWindow` off the first
entry of the per-model usage object. -/
def format_token_usage (raw : Json) (model_usage : Option Json) : Option Json :=
  match raw with
  | .obj map =>
    let input_tokens := usage_number map ["input_tokens", "inputTokens"]
    let output_tokens := usage_number map ["output_tokens", "outputTokens"]
    let cached_read := usage_number map ["cache_read_input_tokens", "cacheReadInputTokens"]
    let cached_create :=
      usage_number map ["cache_creation_input_tokens", "cacheCreationInputTokens"]
    let cached_input_tokens := cached_read + cached_create
    let reasoning_output_tokens :=
      usage_number map ["reasoning_output_tokens", "reasoningOutputTokens"]
    let total_tokens := input_tokens + output_tokens + cached_input_tokens
    let model_context_window :=
      (model_usage.bind fun mu =>
        match mu with
        | .obj fields => fields.head?
        | _ => none).bind fun entry => (entry.2.get "contextWindow").bind Json.asInt
    let totals :=
      usage_totals_json total_tokens input_tokens cached_input_tokens
        output_tokens reasoning_output_tokens
    some (.obj [("total", totals), ("last", totals),
        ("modelContextWindow",
         match model_context_window with
         | some n => .num n
         | none => .null)])
  | _ => none

/-! ### Message text extraction -/

/-- `extract_text_from_content`: concatenate the `text` fields of the `text`
blocks. -/
def extract_text_from_content : List Json → String
  | [] => ""
  | entry :: rest =>
    let piece :=
      if (entry.get "type").bind Json.asStr = some "text" then
        ((entry.get "text").bind Json.asStr).getD ""
      else ""
    piece ++ extract_text_from_content rest

/-- `normalize_message_content`: an array is used as-is; a non-blank string
(or any other non-null scalar, serialized) becomes a single text block. -/
def normalize_message_content (message : Json) : List Json :=
  match message.get "content" with
  | none => []
  | some (.arr values) => values
  | some (.str text) =>
    if strIsEmpty (strTrim text) then []
    else [.obj [("type", .str "text"), ("text", .str text)]]
  | some .null => []
  | some other =>
    let text := other.render
    if strIsEmpty (strTrim text) then []
    else [.obj [("type", .str "text"), ("text", .str text)]]

/-- `extract_text_from_message`. -/
def extract_text_from_message (message : Json) : String :=
  extract_text_from_content (normalize_message_content message)

/-- The delta computation of the stdout loop: the suffix beyond the already
emitted text when the new full text extends it, otherwise the whole new
text (the byte slice `full_text[last_text.len()..]` removes exactly the
prefix `last_text`, which `strDrop`/`strLen` mirror in characters). -/
def compute_delta (last_text full_text : String) : String :=
  if strStartsWith full_text last_text then strDrop full_text (strLen last_text)
  else full_text

/-- One snapshot of the agent-message full text, as handled at the end of the
assistant branch: empty snapshots are ignored, the delta is emitted only when
non-empty, and the emitted text pointer advances only then. -/
def agent_delta_step (last_text text : String) : Option String × String :=
  if strIsEmpty text then (none, last_text)
  else
    let delta := compute_delta last_text text
    if strIsEmpty delta then (none, last_text) else (some delta, text)

/-- The deltas emitted across a sequence of full-text snapshots. -/
def agent_deltas (last_text : String) : List String → List String
  | [] => []
  | t :: ts =>
    match agent_delta_step last_text t with
    | (some d, l') => d :: agent_deltas l' ts
    | (none, l') => agent_deltas l' ts

/-! ### Tool result resolution (`tool_result_output`, `tool_result_value`,
`collapse_subagent_output`) -/

/-- `tool_result_output`: a string as-is, an array joined over its non-empty
text blocks, null as empty, anything else serialized. -/
def tool_result_output (value : Json) : String :=
  match value with
  | .str text => text
  | .arr array =>
    let text_entries := (array.filterMap fun entry =>
      if (entry.get "type").bind Json.asStr = some "text" then
        (entry.get "text").bind Json.asStr
      else none).filter fun text => ¬ strIsEmpty text
    if ¬ text_entries.isEmpty then joinWith "\n" text_entries
    else Json.render (.arr array)
  | .null => ""
  | other => other.render

/-- `tool_result_value`: the primary content when non-empty, else the
top-level `toolUseResult` fallback. -/
def tool_result_value (content_value event_value : Json) : Json :=
  let is_empty :=
    match content_value with
    | .null => true
    | .str text => strIsEmpty (strTrim text)
    | .arr items => items.isEmpty
    | _ => false
  if is_empty then
    match event_value.getOr "toolUseResult" "tool_use_result" with
    | some fallback =>
      match fallback.get "content" with
      | some content => content
      | none => fallback
    | none => .null
  else content_value

/-- `extract_subagent_id`. -/
def extract_subagent_id (value : Json) : Option String :=
  ((value.getOr "toolUseResult" "tool_use_result").bind fun result =>
    result.get "agentId").bind Json.asStr

/-- `should_collapse_subagent_output`. -/
def should_collapse_subagent_output (command : String) (tool_input value : Json) : Bool :=
  if command = "Task" then true
  else
    (tool_input.get "subagent_type").isSome
      || (tool_input.get "subagentType").isSome
      || (extract_subagent_id value).isSome

/-- `collapse_subagent_output`: replace a sub-agent dispatch result with a
one-line pointer to its own thread. -/
def collapse_subagent_output (output : String) (command : String)
    (tool_input value : Json) : String :=
  if ¬ should_collapse_subagent_output command tool_input value then output
  else
    let agent_label :=
      match extract_subagent_id value with
      | some id => "Subagent " ++ id
      | none => "Subagent"
    agent_label ++ " output is available in its thread."

/-! ### Stream translator — stdout loop (`read_persistent_stdout`)

The loop is a fold over the parsed lines read from the stdout of the process. A
read that yields a blank or malformed line is `none` (both are skipped);
reaching the end of the input list models end-of-file or a read error, which
the Rust loop treats identically (synthetic `turn/completed` when a turn is
open, then exit). Emitted events carry the payload parts the verified
properties observe; the remaining `json!` payload fields add no state or
control flow. -/

/-- The normalized events emitted to the event sink, by method. -/
inductive Event where
  | sessionInit (sessionId : String) (model : Option String)
  | turnStarted (turnId : String)
  | itemStartedAgentMessage (itemId : String)
  | itemStartedReasoning (itemId : String) (content : String)
  | requestUserInput (requestId : Nat) (itemId : String) (toolUseId : String)
  | itemStartedTool (itemId : String) (toolName : String)
  | agentMessageDelta (itemId : String) (delta : String)
  | permissionDenied (turnId : String)
  | itemCompletedTool (itemId : String) (toolName : String) (output : String)
  | tokenUsageUpdated (usage : Json)
  | itemCompletedAgentMessage (itemId : String) (text : String) (model : Option String)
  | turnCompleted (turnId : String)

/-- The per-process accumulation state of `read_persistent_stdout`, together
with the pending-turn-id slot of the session (the only part of the session store
the loop touches) and the supply index for synthesized v4 UUIDs. -/
structure ReaderState where
  current_turn_id : String
  item_id : String
  full_text : String
  last_text : String
  last_usage : Option Json
  last_model_usage : Option Json
  last_model : Option String
  tool_names : List (String × String)
  tool_inputs : List (String × Json)
  tool_counter : Nat
  thinking_counter : Nat
  request_id_counter : Nat
  permission_denial_ids : List String
  turn_active : Bool
  pending_turn_id : Option String
  uuid_counter : Nat

/-- The loop locals as initialized on entry from the initial turn id. -/
def initReaderState (initial_turn_id : String) (pending : Option String) : ReaderState :=
  { current_turn_id := initial_turn_id
    item_id := initial_turn_id ++ "-assistant"
    full_text := ""
    last_text := ""
    last_usage := none
    last_model_usage := none
    last_model := none
    tool_names := []
    tool_inputs := []
    tool_counter := 0
    thinking_counter := 0
    request_id_counter := 0
    permission_denial_ids := []
    turn_active := false
    pending_turn_id := pending
    uuid_counter := 0 }

/-- One content block of an assistant line: a non-blank `thinking` block
emits a reasoning item; a `tool_use` block records the tool tables, raises
the numbered question event for `AskUserQuestion`, and emits the started
item. -/
def assistant_block_step (st : ReaderState) (entry : Json) :
    ReaderState × List Event :=
  let entry_type := ((entry.get "type").bind Json.asStr).getD ""
  if entry_type = "thinking" then
    match (entry.get "thinking").bind Json.asStr with
    | some thinking =>
      let trimmed := strTrim thinking
      if strIsEmpty trimmed then (st, [])
      else
        let n := st.thinking_counter + 1
        ({ st with thinking_counter := n },
         [Event.itemStartedReasoning (st.item_id ++ "-thinking-" ++ natToStr n) trimmed])
    | none => (st, [])
  else if entry_type ≠ "tool_use" then (st, [])
  else
    let tool_id := ((entry.get "id").bind Json.asStr).getD ""
    let tool_name := ((entry.get "name").bind Json.asStr).getD "Tool"
    let tool_input := (entry.get "input").getD .null
    let st :=
      if strIsEmpty tool_id then st
      else
        { st with tool_names := mapInsert st.tool_names tool_id tool_name
                  tool_inputs := mapInsert st.tool_inputs tool_id tool_input }
    let idAndSt :=
      if strIsEmpty tool_id then
        (st.current_turn_id ++ "-tool-" ++ natToStr (st.tool_counter + 1),
         { st with tool_counter := st.tool_counter + 1 })
      else (tool_id, st)
    let item_id_tool := idAndSt.1
    let st := idAndSt.2
    let questionPart :=
      if tool_name = "AskUserQuestion" then
        let rid := st.request_id_counter + 1
        ({ st with request_id_counter := rid },
         [Event.requestUserInput rid item_id_tool tool_id])
      else (st, [])
    (questionPart.1, questionPart.2 ++ [Event.itemStartedTool item_id_tool tool_name])

/-- The assistant-line content loop. -/
def assistant_blocks (st : ReaderState) : List Json → ReaderState × List Event
  | [] => (st, [])
  | entry :: rest =>
    let step := assistant_block_step st entry
    let next := assistant_blocks step.1 rest
    (next.1, step.2 ++ next.2)

/-- Start of a turn on the first assistant line while idle: consume the
pending turn id (or synthesize one), reset every per-turn accumulator, and
emit `turn/started` plus the empty agent-message placeholder. -/
def assistant_turn_start (uuidGen : Nat → String) (st : ReaderState) :
    ReaderState × List Event :=
  if st.turn_active then (st, [])
  else
    let picked :=
      match st.pending_turn_id with
      | some tid => (tid, { st with pending_turn_id := none })
      | none => (uuidGen st.uuid_counter, { st with uuid_counter := st.uuid_counter + 1 })
    let tid := picked.1
    let st := picked.2
    let st :=
      { st with turn_active := true
                current_turn_id := tid
                item_id := tid ++ "-assistant"
                full_text := ""
                last_text := ""
                last_usage := none
                last_model_usage := none
                last_model := none
                tool_names := []
                tool_inputs := []
                tool_counter := 0
                thinking_counter := 0
                permission_denial_ids := [] }
    (st, [Event.turnStarted tid, Event.itemStartedAgentMessage st.item_id])

/-- The snapshot/delta tail of the assistant branch: a non-empty full text
replaces `full_text`, and the computed delta is emitted (advancing
`last_text`) only when non-empty. -/
def delta_events (st : ReaderState) (text : String) : ReaderState × List Event :=
  if strIsEmpty text then (st, [])
  else
    let st := { st with full_text := text }
    let delta := compute_delta st.last_text text
    if strIsEmpty delta then (st, [])
    else ({ st with last_text := text }, [Event.agentMessageDelta st.item_id delta])

/-- Handling of a present `message` object in the assistant branch: the
message model, content blocks, running-text delta and usage. -/
def assistant_message_events (st : ReaderState) (message : Json) :
    ReaderState × List Event :=
  let st :=
    match (message.get "model").bind Json.asStr with
    | some model =>
      if strIsEmpty (strTrim model) then st else { st with last_model := some model }
    | none => st
  let blockPart :=
    match (message.get "content").bind Json.asArr with
    | some content => assistant_blocks st content
    | none => (st, [])
  let st := blockPart.1
  let text := extract_text_from_message message
  let deltaPart := delta_events st text
  let st := deltaPart.1
  let st :=
    match message.get "usage" with
    | some usage => { st with last_usage := some usage }
    | none => st
  (st, blockPart.2 ++ deltaPart.2)

/-- Body of the assistant branch after any turn start: the `uuid` item-id
override, then the message handling. -/
def assistant_body (st : ReaderState) (value : Json) : ReaderState × List Event :=
  let st :=
    match (value.get "uuid").bind Json.asStr with
    | some uuid => if strIsEmpty uuid then st else { st with item_id := uuid }
    | none => st
  match value.get "message" with
  | none => (st, [])
  | some message => assistant_message_events st message

/-- The whole assistant case of the loop body. -/
def handle_assistant_line (uuidGen : Nat → String) (st : ReaderState)
    (value : Json) : ReaderState × List Event :=
  let started := assistant_turn_start uuidGen st
  let body := assistant_body started.1 value
  (body.1, started.2 ++ body.2)

/-- One `tool_result` content entry of a user line: resolve the output text
(with the `toolUseResult` fallback), emit a deduplicated permission-denial
event for flagged errors, collapse sub-agent output, and emit the completed
item. -/
def user_result_step (thread_id : String) (value : Json) (st : ReaderState)
    (index : Nat) (entry : Json) : ReaderState × List Event :=
  if (entry.get "type").bind Json.asStr ≠ some "tool_result" then (st, [])
  else
    let tool_use_id := ((entry.getOr "tool_use_id" "toolUseId").bind Json.asStr).getD ""
    let content_value := (entry.get "content").getD .null
    let output := tool_result_output content_value
    let is_error := ((entry.get "is_error").bind Json.asBool).getD false
    let output :=
      if strIsEmpty (strTrim output) then
        match value.getOr "toolUseResult" "tool_use_result" with
        | some fallback =>
          match fallback.get "content" with
          | some content => tool_result_output content
          | none => tool_result_output fallback
        | none => output
      else output
    let output_lower := strToLower output
    let is_permission_denial := is_error
      && (strContains output_lower "requested permissions"
          || strContains output_lower ("haven" ++ (Char.ofNat 39).toString ++ "t granted"))
    let command := (mapLookup st.tool_names tool_use_id).getD "Tool"
    let tool_input := (mapLookup st.tool_inputs tool_use_id).getD .null
    let denialPart :=
      if is_permission_denial then
        let denial_id :=
          if strIsEmpty tool_use_id then
            thread_id ++ "-" ++ command ++ "-" ++ natToStr index
          else tool_use_id
        if denial_id ∈ st.permission_denial_ids then (st, [])
        else
          ({ st with permission_denial_ids := denial_id :: st.permission_denial_ids },
           [Event.permissionDenied st.current_turn_id])
      else (st, [])
    let st := denialPart.1
    let output := collapse_subagent_output output command tool_input value
    let idAndSt :=
      if strIsEmpty tool_use_id then
        (st.current_turn_id ++ "-tool-result-" ++ natToStr (st.tool_counter + 1),
         { st with tool_counter := st.tool_counter + 1 })
      else (tool_use_id, st)
    (idAndSt.2,
     denialPart.2 ++ [Event.itemCompletedTool idAndSt.1 command output])

/-- The user-line content loop (`iter().enumerate()`). -/
def user_results (thread_id : String) (value : Json) (st : ReaderState)
    (index : Nat) : List Json → ReaderState × List Event
  | [] => (st, [])
  | entry :: rest =>
    let step := user_result_step thread_id value st index entry
    let next := user_results thread_id value step.1 (index + 1) rest
    (next.1, step.2 ++ next.2)

/-- The user case of the loop body. -/
def handle_user_line (thread_id : String) (st : ReaderState) (value : Json) :
    ReaderState × List Event :=
  match value.get "message" with
  | none => (st, [])
  | some message =>
    match (message.get "content").bind Json.asArr with
    | some content => user_results thread_id value st 0 content
    | none => (st, [])

/-- The batched `permission_denials` entries of a result line: count the
entries with a non-blank tool name whose denial id is new, recording the ids
(the emitted list payload is summarized by the count). -/
def result_denials (thread_id : String) (st : ReaderState) (index : Nat) :
    List Json → ReaderState × Nat
  | [] => (st, 0)
  | entry :: rest =>
    let tool_name := strTrim (((entry.getOr "tool_name" "toolName").bind Json.asStr).getD "")
    if strIsEmpty tool_name then result_denials thread_id st (index + 1) rest
    else
      let tool_use_id := ((entry.getOr "tool_use_id" "toolUseId").bind Json.asStr).getD ""
      let denial_id :=
        if strIsEmpty tool_use_id then thread_id ++ "-" ++ tool_name ++ "-" ++ natToStr index
        else tool_use_id
      if denial_id ∈ st.permission_denial_ids then
        result_denials thread_id st (index + 1) rest
      else
        let st := { st with permission_denial_ids := denial_id :: st.permission_denial_ids }
        let next := result_denials thread_id st (index + 1) rest
        (next.1, next.2 + 1)

/-- The turn-closing tail of the result case (`if turn_active`): consume the
tracked usage into a token-usage event when it formats, then emit the final
agent-message item and `turn/completed`, returning to idle. -/
def result_close (st : ReaderState) : ReaderState × List Event :=
  if st.turn_active then
    let usagePart :=
      match st.last_usage with
      | some u =>
        ({ st with last_usage := none },
         match format_token_usage u st.last_model_usage with
         | some usage => [Event.tokenUsageUpdated usage]
         | none => [])
      | none => (st, [])
    let st := usagePart.1
    ({ st with turn_active := false },
     usagePart.2
       ++ [Event.itemCompletedAgentMessage st.item_id st.full_text st.last_model,
           Event.turnCompleted st.current_turn_id])
  else (st, [])

/-- The result case of the loop body: track final usage, emit any new batched
permission denials, and close the open turn. -/
def handle_result_line (thread_id : String) (st : ReaderState) (value : Json) :
    ReaderState × List Event :=
  let st :=
    match value.get "usage" with
    | some usage => { st with last_usage := some usage }
    | none => st
  let st :=
    match value.get "modelUsage" with
    | some mu => { st with last_model_usage := some mu }
    | none => st
  let denialPart :=
    match (value.getOr "permission_denials" "permissionDenials").bind Json.asArr with
    | some items => result_denials thread_id st 0 items
    | none => (st, 0)
  let st := denialPart.1
  let evs0 := if denialPart.2 = 0 then [] else [Event.permissionDenied st.current_turn_id]
  let closePart := result_close st
  (closePart.1, evs0 ++ closePart.2)

/-- The loop body for one successfully parsed line: skip sub-agent events,
emit `session/initialized` for system-init lines, then dispatch on the line
type (unknown types fall through silently). -/
def process_line (uuidGen : Nat → String) (thread_id : String)
    (st : ReaderState) (value : Json) : ReaderState × List Event :=
  if ((value.get "parent_tool_use_id").bind Json.asStr).isSome then (st, [])
  else
    let event_type := ((value.get "type").bind Json.asStr).getD ""
    let subtype := ((value.get "subtype").bind Json.asStr).getD ""
    if event_type = "system" ∧ subtype = "init" then
      let session_id := ((value.get "session_id").bind Json.asStr).getD thread_id
      let model := (value.get "model").bind Json.asStr
      (st, [Event.sessionInit session_id model])
    else if event_type = "assistant" then handle_assistant_line uuidGen st value
    else if event_type = "user" then handle_user_line thread_id st value
    else if event_type = "result" then handle_result_line thread_id st value
    else (st, [])

/-- `read_persistent_stdout` as a fold over the stream of parsed lines:
`none` entries are blank or malformed lines (skipped); exhausting the list is
end-of-file or a read error, both of which emit the synthetic
`turn/completed` for a still-open turn and exit. -/
def read_persistent_stdout (uuidGen : Nat → String) (thread_id : String)
    (st : ReaderState) : List (Option Json) → ReaderState × List Event
  | [] =>
    if st.turn_active then (st, [Event.turnCompleted st.current_turn_id])
    else (st, [])
  | none :: rest => read_persistent_stdout uuidGen thread_id st rest
  | some value :: rest =>
    let step := process_line uuidGen thread_id st value
    let next := read_persistent_stdout uuidGen thread_id step.1 rest
    (next.1, step.2 ++ next.2)

/-! ### Observation helpers used by the statements -/

/-- Whether an event opens or closes a turn. -/
def Event.isTurnEvent : Event → Bool
  | .turnStarted _ => true
  | .turnCompleted _ => true
  | _ => false

/-- Scan an event sequence tracking whether a turn is open: `turn/started` is
legal only while closed, `turn/completed` only while open; the result is the
final open/closed state, or `none` if the bracketing is violated anywhere. -/
def turnScan : Bool → List Event → Option Bool
  | b, [] => some b
  | b, e :: es =>
    match e with
    | .turnStarted _ => if b then none else turnScan true es
    | .turnCompleted _ => if b then turnScan false es else none
    | _ => turnScan b es

/-- The entries of `extras` not already seen, first occurrences only — the
order-preserving deduplicating append of `build_claude_path_env`. -/
def appendDedup (seen : List String) : List String → List String
  | [] => []
  | e :: es => if e ∈ seen then appendDedup seen es else e :: appendDedup (seen ++ [e]) es

/-! ## Theorems -/

theorem mapLookup_mapRemove_self {α : Type} (m : List (String × α)) (k : String) :
    mapLookup (mapRemove m k) k = none := by
  induction m with
  | nil => rfl
  | cons p rest ih =>
    by_cases h : p.1 = k
    · simpa [mapRemove, h] using ih
    · simp [mapRemove, mapLookup, h, ih]

theorem mapLookup_mapRemove_ne {α : Type} (m : List (String × α)) (k k' : String)
    (h : k' ≠ k) : mapLookup (mapRemove m k) k' = mapLookup m k' := by
  have h' : k ≠ k' := fun hk => h hk.symm
  induction m with
  | nil => rfl
  | cons p rest ih =>
    by_cases hp : p.1 = k
    · simp [mapRemove, mapLookup, hp, h, h', ih]
    · by_cases hq : p.1 = k'
      · simp [mapRemove, mapLookup, hp, hq, h, h']
      · simp [mapRemove, mapLookup, hp, hq, h, h', ih]

theorem mapLookup_mapInsert_self {α : Type} (m : List (String × α)) (k : String)
    (v : α) : mapLookup (mapInsert m k v) k = some v := by
  simp [mapInsert, mapLookup]

theorem mapLookup_mapInsert_ne {α : Type} (m : List (String × α)) (k k' : String)
    (v : α) (h : k' ≠ k) : mapLookup (mapInsert m k v) k' = mapLookup m k' := by
  have : k ≠ k' := fun hk => h hk.symm
  simp [mapInsert, mapLookup, this, mapLookup_mapRemove_ne m k k' h]

/-- C4: for every usage object, `cachedInputTokens` is the sum of the two
cache counters and `totalTokens` adds input, output and cached tokens;
`modelContextWindow` is read off the first entry of the per-model usage map;
and on `input=10, output=5, cache_read=3, cache_creation=2` the result has
`cachedInputTokens = 5` and `totalTokens = 20`. -/
theorem format_token_usage_C4 :
    (∀ (map : List (String × Json)) (mu : Option Json),
      ((format_token_usage (.obj map) mu).bind fun j =>
          (j.get "total").bind fun t => t.get "cachedInputTokens")
        = some (.num (usage_number map ["cache_read_input_tokens", "cacheReadInputTokens"]
            + usage_number map ["cache_creation_input_tokens", "cacheCreationInputTokens"]))
      ∧ ((format_token_usage (.obj map) mu).bind fun j =>
          (j.get "total").bind fun t => t.get "totalTokens")
        = some (.num (usage_number map ["input_tokens", "inputTokens"]
            + usage_number map ["output_tokens", "outputTokens"]
            + (usage_number map ["cache_read_input_tokens", "cacheReadInputTokens"]
               + usage_number map ["cache_creation_input_tokens", "cacheCreationInputTokens"]))))
  ∧ (∀ (map : List (String × Json)) (entry : String × Json)
        (rest : List (String × Json)),
      ((format_token_usage (.obj map) (some (.obj (entry :: rest)))).bind fun j =>
          j.get "modelContextWindow")
        = some (match (entry.2.get "contextWindow").bind Json.asInt with
                | some n => .num n
                | none => .null))
  ∧ ((format_token_usage
        (.obj [("input_tokens", .num 10), ("output_tokens", .num 5),
               ("cache_read_input_tokens", .num 3),
               ("cache_creation_input_tokens", .num 2)]) none).bind fun j =>
        (j.get "total").bind fun t => t.get "cachedInputTokens") = some (.num 5)
  ∧ ((format_token_usage
        (.obj [("input_tokens", .num 10), ("output_tokens", .num 5),
               ("cache_read_input_tokens", .num 3),
               ("cache_creation_input_tokens", .num 2)]) none).bind fun j =>
        (j.get "total").bind fun t => t.get "totalTokens") = some (.num 20) :=
  ⟨fun _ _ => ⟨rfl, rfl⟩, fun _ _ _ => rfl, rfl, rfl⟩

/-- C3: for successive non-empty full-text snapshots, the emitted delta is
the suffix beyond the previously emitted text when the new text extends it
and the whole new text otherwise, with no event for an empty delta; the loop
body snapshot handling agrees with this step; and the two spec examples
hold. -/
theorem agent_delta_C3 :
    (∀ last text : String, strIsEmpty text = false →
      agent_delta_step last text
        = if strStartsWith text last then
            (if strIsEmpty (strDrop text (strLen last)) then (none, last)
             else (some (strDrop text (strLen last)), text))
          else (some text, text))
  ∧ (∀ (st : ReaderState) (text : String),
      (delta_events st text).2
        = (match (agent_delta_step st.last_text text).1 with
           | some d => [Event.agentMessageDelta st.item_id d]
           | none => [])
      ∧ ((delta_events st text).1).last_text = (agent_delta_step st.last_text text).2)
  ∧ agent_deltas "" ["Hello", "Hello, world"] = ["Hello", ", world"]
  ∧ agent_deltas "" ["Hello, world", "Hi"] = ["Hello, world", "Hi"] := by
  refine ⟨?_, ?_, by rfl, by rfl⟩
  · intro last text h
    by_cases hs : strStartsWith text last
    · simp [agent_delta_step, compute_delta, h, hs]
    · simp [agent_delta_step, compute_delta, h, hs]
  · intro st text
    by_cases h : strIsEmpty text
    · simp [delta_events, agent_delta_step, h]
    · by_cases hd : strIsEmpty (compute_delta st.last_text text)
      · simp [delta_events, agent_delta_step, h, hd]
      · simp [delta_events, agent_delta_step, h, hd]

/-- Witness for C3 at the concrete snapshot pair from the spec. -/
theorem agent_delta_C3_witness :
    agent_delta_step "Hello" "Hello, world" = (some ", world", "Hello, world") := by
  have h := agent_delta_C3.1 "Hello" "Hello, world" (by rfl)
  rw [h]
  rfl

/-- C6: for a thread with a persistent session, the pending turn id is
consume-once — after a set, the first take returns the value and a second
take returns empty; two sets with no intervening take yield only the last
value. -/
theorem take_pending_turn_id_C6 :
    ∀ (st : WorkspaceSession) (thread v v1 v2 : String),
      (mapLookup st.persistent_sessions thread).isSome = true →
      ((take_pending_turn_id (set_pending_turn_id st thread v) thread).1 = some v
      ∧ (take_pending_turn_id
           (take_pending_turn_id (set_pending_turn_id st thread v) thread).2 thread).1
          = none
      ∧ (take_pending_turn_id
           (set_pending_turn_id (set_pending_turn_id st thread v1) thread v2) thread).1
          = some v2) := by
  intro st thread v v1 v2 h
  match hl : mapLookup st.persistent_sessions thread with
  | none => rw [hl] at h; simp at h
  | some s =>
    refine ⟨?_, ?_, ?_⟩ <;>
      simp [set_pending_turn_id, take_pending_turn_id, hl, mapLookup_mapInsert_self]

/-- Witness for C6 on a one-session store. -/
theorem take_pending_turn_id_C6_witness :
    (take_pending_turn_id
        (set_pending_turn_id ⟨[], [("t", ⟨1, 2, none, none, none⟩)]⟩ "t" "v") "t").1
      = some "v" :=
  (take_pending_turn_id_C6 ⟨[], [("t", ⟨1, 2, none, none, none⟩)]⟩ "t" "v" "a" "b"
    (by rfl)).1

/-- C2: `interrupt_turn` with a legacy entry under a mismatched turn id
leaves the table unchanged (same lookups everywhere) and succeeds without
touching any process; with a matching id it removes the entry and kills its
process (succeeding whenever the kill itself does not fail with a
non-invalid-input error); with no legacy entry it removes and kills the
persistent session of the thread regardless of the supplied turn id, and a repeat
call once nothing remains still succeeds. -/
theorem interrupt_turn_C2 :
    ∀ (killRes : Nat → KillRes) (st : WorkspaceSession) (thread turn : String),
      (∀ t : ActiveTurn, mapLookup st.active_turns thread = some t → t.turn_id ≠ turn →
        (interrupt_turn killRes st thread turn).1 = .ok ()
        ∧ (∀ k, mapLookup (interrupt_turn killRes st thread turn).2.1.active_turns k
              = mapLookup st.active_turns k)
        ∧ (interrupt_turn killRes st thread turn).2.1.persistent_sessions
            = st.persistent_sessions
        ∧ (interrupt_turn killRes st thread turn).2.2 = [])
    ∧ (∀ t : ActiveTurn, mapLookup st.active_turns thread = some t → t.turn_id = turn →
        mapLookup (interrupt_turn killRes st thread turn).2.1.active_turns thread = none
        ∧ (interrupt_turn killRes st thread turn).2.2 = [ProcAction.kill t.child]
        ∧ ((∀ m, killRes t.child ≠ .errOther m) →
            (interrupt_turn killRes st thread turn).1 = .ok ()))
    ∧ (mapLookup st.active_turns thread = none →
        mapLookup (interrupt_turn killRes st thread turn).2.1.persistent_sessions thread
          = none
        ∧ (∀ s : PersistentSession, mapLookup st.persistent_sessions thread = some s →
            (interrupt_turn killRes st thread turn).2.2
              = [ProcAction.flush s.stdin, ProcAction.kill s.child])
        ∧ (∀ turn2, (interrupt_turn killRes
              (interrupt_turn killRes st thread turn).2.1 thread turn2).1 = .ok ())) := by
  intro killRes st thread turn
  refine ⟨?_, ?_, ?_⟩
  · intro t ht hne
    refine ⟨?_, ?_, ?_, ?_⟩ <;> simp [interrupt_turn, ht, hne]
    intro k
    by_cases hk : k = thread
    · subst hk
      simp [mapLookup_mapInsert_self, ht]
    · rw [mapLookup_mapInsert_ne _ _ _ _ hk, mapLookup_mapRemove_ne _ _ _ hk]
  · intro t ht heq
    refine ⟨?_, ?_, ?_⟩
    · match hk : killRes t.child with
      | .ok => simp [interrupt_turn, ht, heq, hk, mapLookup_mapRemove_self]
      | .errInvalidInput => simp [interrupt_turn, ht, heq, hk, mapLookup_mapRemove_self]
      | .errOther m => simp [interrupt_turn, ht, heq, hk, mapLookup_mapRemove_self]
    · match hk : killRes t.child with
      | .ok => simp [interrupt_turn, ht, heq, hk]
      | .errInvalidInput => simp [interrupt_turn, ht, heq, hk]
      | .errOther m => simp [interrupt_turn, ht, heq, hk]
    · intro hno
      match hk : killRes t.child with
      | .ok => simp [interrupt_turn, ht, heq, hk]
      | .errInvalidInput => simp [interrupt_turn, ht, heq, hk]
      | .errOther m => exact absurd hk (hno m)
  · intro hno
    refine ⟨?_, ?_, ?_⟩
    · match hs : mapLookup st.persistent_sessions thread with
      | some s =>
        match hk : killRes s.child with
        | .ok =>
          simp [interrupt_turn, kill_persistent_session, hno, hs, hk,
            mapLookup_mapRemove_self]
        | .errInvalidInput =>
          simp [interrupt_turn, kill_persistent_session, hno, hs, hk,
            mapLookup_mapRemove_self]
        | .errOther m =>
          simp [interrupt_turn, kill_persistent_session, hno, hs, hk,
            mapLookup_mapRemove_self]
      | none => simp [interrupt_turn, kill_persistent_session, hno, hs]
    · intro s hs
      match hk : killRes s.child with
      | .ok => simp [interrupt_turn, kill_persistent_session, hno, hs, hk]
      | .errInvalidInput => simp [interrupt_turn, kill_persistent_session, hno, hs, hk]
      | .errOther m => simp [interrupt_turn, kill_persistent_session, hno, hs, hk]
    · intro turn2
      match hs : mapLookup st.persistent_sessions thread with
      | some s =>
        match hk : killRes s.child with
        | .ok =>
          simp [interrupt_turn, kill_persistent_session, hno, hs, hk,
            mapLookup_mapRemove_self]
        | .errInvalidInput =>
          simp [interrupt_turn, kill_persistent_session, hno, hs, hk,
            mapLookup_mapRemove_self]
        | .errOther m =>
          simp [interrupt_turn, kill_persistent_session, hno, hs, hk,
            mapLookup_mapRemove_self]
      | none => simp [interrupt_turn, kill_persistent_session, hno, hs]

/-- Witness for C2 on a store with one matching legacy turn and one
persistent-only thread. -/
theorem interrupt_turn_C2_witness :
    mapLookup ((interrupt_turn (fun _ => KillRes.ok)
        ⟨[("t", ⟨"u", 5⟩)], []⟩ "t" "u").2.1).active_turns "t" = none
    ∧ (interrupt_turn (fun _ => KillRes.ok) ⟨[("t", ⟨"u", 5⟩)], []⟩ "t" "u").1 = .ok ()
    ∧ (interrupt_turn (fun _ => KillRes.ok)
        ⟨[], [("p", ⟨1, 2, none, none, none⟩)]⟩ "p" "whatever").2.2
      = [ProcAction.flush 1, ProcAction.kill 2] := by
  have h1 := (interrupt_turn_C2 (fun _ => KillRes.ok)
    ⟨[("t", ⟨"u", 5⟩)], []⟩ "t" "u").2.1 ⟨"u", 5⟩ (by rfl) (by rfl)
  have h2 := (interrupt_turn_C2 (fun _ => KillRes.ok)
    ⟨[], [("p", ⟨1, 2, none, none, none⟩)]⟩ "p" "whatever").2.2 (by rfl)
  exact ⟨h1.1, h1.2.2 (fun m => by simp), h2.2.1 ⟨1, 2, none, none, none⟩ (by rfl)⟩

/-- C1: for a thread that already has a persistent session,
`ensure_persistent_session` with an unchanged fingerprint (normalized
permission mode and empty-filtered model both matching the stored ones)
returns a fresh turn id and performs no kill, removal or respawn; with any
difference it flushes and kills the stored process, removes it, and stores a
freshly spawned process carrying the requested fingerprint, returning a
fresh turn id (the kill outcome is the success case; an OS kill failure
aborts before respawning). -/
theorem ensure_persistent_session_C1 :
    ∀ (killRes : Nat → KillRes) (env : SpawnEnv) (fresh : String)
      (st : WorkspaceSession) (thread : String) (model access : Option String)
      (s : PersistentSession),
      mapLookup st.persistent_sessions thread = some s →
      ((s.permission_mode.getD "default"
          = (access.map normalize_access_mode).getD "default"
        ∧ s.model = model.filter (fun m => ¬ strIsEmpty (strTrim m)) →
        ensure_persistent_session killRes env fresh st thread model access
          = (.ok fresh, st, []))
      ∧ ((s.permission_mode.getD "default"
            ≠ (access.map normalize_access_mode).getD "default"
          ∨ s.model ≠ model.filter (fun m => ¬ strIsEmpty (strTrim m))) →
        killRes s.child = .ok →
        ensure_persistent_session killRes env fresh st thread model access
          = (.ok fresh,
             spawn_persistent_claude_session env
               { st with persistent_sessions := mapRemove st.persistent_sessions thread }
               thread model access,
             [ProcAction.flush s.stdin, ProcAction.kill s.child])
        ∧ mapLookup
            (ensure_persistent_session killRes env fresh st thread model
              access).2.1.persistent_sessions thread
          = some ⟨env.new_stdin, env.new_child, none,
              access.map normalize_access_mode, model⟩)) := by
  intro killRes env fresh st thread model access s hs
  constructor
  · intro hsame
    have h1 := hsame.1
    have h2 := hsame.2
    simp [ensure_persistent_session, hs, h1, h2]
  · intro hdiff hk
    have hcond : ¬ (s.permission_mode.getD "default"
          = (access.map normalize_access_mode).getD "default"
        ∧ s.model = model.filter (fun m => ¬ strIsEmpty (strTrim m))) := by
      intro hc
      rcases hdiff with h | h
      · exact h hc.1
      · exact h hc.2
    constructor
    · simp only [ensure_persistent_session, hs, kill_persistent_session]
      rw [if_pos]
      · simp [hk]
      · rcases hdiff with h | h
        · exact Or.inl h
        · exact Or.inr h
    · simp only [ensure_persistent_session, hs, kill_persistent_session]
      rw [if_pos]
      · simp [hk, spawn_persistent_claude_session, set_persistent_session,
          mapLookup_mapInsert_self]
      · rcases hdiff with h | h
        · exact Or.inl h
        · exact Or.inr h

/-- Witness for C1: a stored `plan` session restarted by a `full-access`
request, and left alone by a matching `read-only` request. -/
theorem ensure_persistent_session_C1_witness :
    ensure_persistent_session (fun _ => KillRes.ok) ⟨3, 4⟩ "turn"
        ⟨[], [("t", ⟨1, 2, none, some "plan", none⟩)]⟩ "t" none (some "read-only")
      = (.ok "turn", ⟨[], [("t", ⟨1, 2, none, some "plan", none⟩)]⟩, [])
    ∧ mapLookup (ensure_persistent_session (fun _ => KillRes.ok) ⟨3, 4⟩ "turn"
        ⟨[], [("t", ⟨1, 2, none, some "plan", none⟩)]⟩ "t" none
        (some "full-access")).2.1.persistent_sessions "t"
      = some ⟨3, 4, none, some "bypassPermissions", none⟩ := by
  have h1 := (ensure_persistent_session_C1 (fun _ => KillRes.ok) ⟨3, 4⟩ "turn"
    ⟨[], [("t", ⟨1, 2, none, some "plan", none⟩)]⟩ "t" none (some "read-only")
    ⟨1, 2, none, some "plan", none⟩ (by rfl)).1 ⟨by rfl, by rfl⟩
  have h2 := (ensure_persistent_session_C1 (fun _ => KillRes.ok) ⟨3, 4⟩ "turn"
    ⟨[], [("t", ⟨1, 2, none, some "plan", none⟩)]⟩ "t" none (some "full-access")
    ⟨1, 2, none, some "plan", none⟩ (by rfl)).2 (Or.inl (by decide)) (by rfl)
  exact ⟨h1, h2.2⟩

/-- C8 counterexample: `kill_persistent_session` does NOT treat the
invalid-input (already exited) kill error as success — it surfaces it as an
error — and the legacy active-turn kill in `interrupt_turn` performs no
flush before killing (its trace is the bare kill), so the claim fails on
both kill paths it quantifies over. -/
theorem kill_paths_C8_counterexample :
    (kill_persistent_session (fun _ => KillRes.errInvalidInput)
        ⟨[], [("t", ⟨1, 2, none, none, none⟩)]⟩ "t").1 = .error "invalid input"
    ∧ (interrupt_turn (fun _ => KillRes.ok) ⟨[("t", ⟨"u", 5⟩)], []⟩ "t" "u").2.2
        = [ProcAction.kill 5] :=
  ⟨rfl, rfl⟩

/-- C8 amended: `kill_persistent_session` flushes the pending
input before killing but succeeds only when the OS kill itself succeeds
(every kill error, the invalid-input already-exited kind included, is
surfaced); the legacy active-turn kill in `interrupt_turn` performs no flush
(the legacy handle holds no input handle) but does treat the invalid-input
kill error as success. -/
theorem kill_paths_C8_amended :
    ∀ (killRes : Nat → KillRes) (st : WorkspaceSession) (thread : String),
      (∀ s : PersistentSession, mapLookup st.persistent_sessions thread = some s →
        (kill_persistent_session killRes st thread).2.2
          = [ProcAction.flush s.stdin, ProcAction.kill s.child]
        ∧ ((kill_persistent_session killRes st thread).1 = .ok ()
            ↔ killRes s.child = .ok))
    ∧ (∀ (t : ActiveTurn) (turn : String),
        mapLookup st.active_turns thread = some t → t.turn_id = turn →
        (interrupt_turn killRes st thread turn).2.2 = [ProcAction.kill t.child]
        ∧ ((interrupt_turn killRes st thread turn).1 = .ok ()
            ↔ (killRes t.child = .ok ∨ killRes t.child = .errInvalidInput))) := by
  intro killRes st thread
  constructor
  · intro s hs
    match hk : killRes s.child with
    | .ok => simp [kill_persistent_session, hs, hk]
    | .errInvalidInput => simp [kill_persistent_session, hs, hk]
    | .errOther m => simp [kill_persistent_session, hs, hk]
  · intro t turn ht heq
    match hk : killRes t.child with
    | .ok => simp [interrupt_turn, ht, heq, hk]
    | .errInvalidInput => simp [interrupt_turn, ht, heq, hk]
    | .errOther m => simp [interrupt_turn, ht, heq, hk]

/-- Witness for the amended C8 on concrete one-entry stores. -/
theorem kill_paths_C8_amended_witness :
    (kill_persistent_session (fun _ => KillRes.ok)
        ⟨[], [("t", ⟨1, 2, none, none, none⟩)]⟩ "t").2.2
      = [ProcAction.flush 1, ProcAction.kill 2]
    ∧ (interrupt_turn (fun _ => KillRes.errInvalidInput)
        ⟨[("t", ⟨"u", 5⟩)], []⟩ "t" "u").1 = .ok () := by
  have h1 := (kill_paths_C8_amended (fun _ => KillRes.ok)
    ⟨[], [("t", ⟨1, 2, none, none, none⟩)]⟩ "t").1 ⟨1, 2, none, none, none⟩ (by rfl)
  have h2 := (kill_paths_C8_amended (fun _ => KillRes.errInvalidInput)
    ⟨[("t", ⟨"u", 5⟩)], []⟩ "t").2 ⟨"u", 5⟩ "u" (by rfl) (by rfl)
  exact ⟨h1.1, h2.2.mpr (Or.inr rfl)⟩

theorem foldl_dedup_eq_appendDedup :
    ∀ (es acc : List String),
      es.foldl (fun acc e => if e ∈ acc then acc else acc ++ [e]) acc
        = acc ++ appendDedup acc es := by
  intro es
  induction es with
  | nil => intro acc; simp [appendDedup]
  | cons e rest ih =>
    intro acc
    by_cases h : e ∈ acc
    · simp [appendDedup, h, ih]
    · simp only [List.foldl_cons, appendDedup, h, if_neg, ite_false, ih (acc ++ [e])]
      simp

theorem appendDedup_disjoint :
    ∀ (es seen : List String) (a : String), a ∈ appendDedup seen es → a ∉ seen := by
  intro es
  induction es with
  | nil => intro seen a ha; simp [appendDedup] at ha
  | cons e rest ih =>
    intro seen a ha
    by_cases h : e ∈ seen
    · exact ih seen a (by simpa [appendDedup, h] using ha)
    · simp only [appendDedup, h, ite_false, List.mem_cons] at ha
      rcases ha with rfl | ha
      · exact h
      · intro hseen
        exact ih (seen ++ [e]) a ha (by simp [hseen])

theorem appendDedup_nodup :
    ∀ (es seen : List String), (appendDedup seen es).Nodup := by
  intro es
  induction es with
  | nil => intro seen; simp [appendDedup]
  | cons e rest ih =>
    intro seen
    by_cases h : e ∈ seen
    · simpa [appendDedup, h] using ih seen
    · simp only [appendDedup, h, ite_false, List.nodup_cons]
      refine ⟨fun hmem => ?_, ih (seen ++ [e])⟩
      exact appendDedup_disjoint rest (seen ++ [e]) e hmem (by simp)

theorem appendDedup_sublist :
    ∀ (es seen : List String), List.Sublist (appendDedup seen es) es := by
  intro es
  induction es with
  | nil => intro seen; simp [appendDedup]
  | cons e rest ih =>
    intro seen
    by_cases h : e ∈ seen
    · simpa [appendDedup, h] using (ih seen).cons e
    · simpa [appendDedup, h] using (ih (seen ++ [e])).cons₂ e

theorem appendDedup_complete :
    ∀ (es seen : List String) (a : String),
      a ∈ es → a ∈ seen ∨ a ∈ appendDedup seen es := by
  intro es
  induction es with
  | nil => intro seen a ha; simp at ha
  | cons e rest ih =>
    intro seen a ha
    by_cases h : e ∈ seen
    · rcases List.mem_cons.mp ha with rfl | ha
      · exact Or.inl h
      · simpa [appendDedup, h] using ih seen a ha
    · rcases List.mem_cons.mp ha with rfl | ha
      · exact Or.inr (by simp [appendDedup, h])
      · rcases ih (seen ++ [e]) a ha with hmem | hmem
        · rcases List.mem_append.mp hmem with hmem | hmem
          · exact Or.inl hmem
          · exact Or.inr (by simp [appendDedup, h, List.mem_singleton.mp hmem])
        · exact Or.inr (by simp [appendDedup, h, hmem])

/-- C9 counterexample: with inherited `PATH=/a` and explicit binary
`/x/claude`, the parent directory `/x` is appended LAST, after the fixed
conventional directories — not before them as the claim orders it — and with
inherited `PATH=/a:/a` the duplicate inherited entry is preserved, so
duplicates are not removed from the whole constructed path. -/
theorem build_claude_path_env_C9_counterexample :
    build_claude_path_env "/a" none [] (some "/x/claude")
      = some "/a:/opt/homebrew/bin:/usr/local/bin:/usr/bin:/bin:/usr/sbin:/sbin:/x"
    ∧ build_claude_path_env "/a" none [] (some "/x/claude")
      ≠ some "/a:/x:/opt/homebrew/bin:/usr/local/bin:/usr/bin:/bin:/usr/sbin:/sbin"
    ∧ build_claude_path_env "/a:/a" none [] none
      = some "/a:/a:/opt/homebrew/bin:/usr/local/bin:/usr/bin:/bin:/usr/sbin:/sbin" :=
  ⟨rfl, by decide, rfl⟩

/-- C9 amended: inherited `PATH` entries come first in order (duplicates
among them preserved); after them come the extras — the fixed conventional
directories, then the home-derived and nvm directories, then the parent of
the explicit binary path last — with only the appended extras deduplicated
(against the inherited entries and each other), first occurrence kept, none
dropped. -/
theorem build_claude_path_env_C9_amended :
    ∀ (pathEnv : String) (home : Option String) (nvm : List String)
      (bin : Option String),
      build_claude_path_env pathEnv home nvm bin
        = (if ((splitOnChar ':' pathEnv).filter (fun v => ¬ strIsEmpty v)
              ++ appendDedup
                  ((splitOnChar ':' pathEnv).filter (fun v => ¬ strIsEmpty v))
                  (claudeExtraDirs home nvm bin)).isEmpty then none
           else some (joinWith ":"
              ((splitOnChar ':' pathEnv).filter (fun v => ¬ strIsEmpty v)
                ++ appendDedup
                    ((splitOnChar ':' pathEnv).filter (fun v => ¬ strIsEmpty v))
                    (claudeExtraDirs home nvm bin))))
      ∧ (appendDedup ((splitOnChar ':' pathEnv).filter (fun v => ¬ strIsEmpty v))
          (claudeExtraDirs home nvm bin)).Nodup
      ∧ (∀ a ∈ appendDedup
            ((splitOnChar ':' pathEnv).filter (fun v => ¬ strIsEmpty v))
            (claudeExtraDirs home nvm bin),
          a ∉ (splitOnChar ':' pathEnv).filter (fun v => ¬ strIsEmpty v))
      ∧ List.Sublist
          (appendDedup ((splitOnChar ':' pathEnv).filter (fun v => ¬ strIsEmpty v))
            (claudeExtraDirs home nvm bin))
          (claudeExtraDirs home nvm bin)
      ∧ (∀ e ∈ claudeExtraDirs home nvm bin,
          e ∈ (splitOnChar ':' pathEnv).filter (fun v => ¬ strIsEmpty v)
          ∨ e ∈ appendDedup ((splitOnChar ':' pathEnv).filter (fun v => ¬ strIsEmpty v))
              (claudeExtraDirs home nvm bin)) := by
  intro pathEnv home nvm bin
  refine ⟨?_, appendDedup_nodup _ _,
    fun a ha => appendDedup_disjoint _ _ a ha,
    appendDedup_sublist _ _,
    fun e he => appendDedup_complete _ _ e he⟩
  simp only [build_claude_path_env, foldl_dedup_eq_appendDedup]

/-- Witness for the amended C9 at the counterexample input. -/
theorem build_claude_path_env_C9_amended_witness :
    build_claude_path_env "/a" none [] (some "/x/claude")
      = (if (["/a"] ++ appendDedup ["/a"] (claudeExtraDirs none [] (some "/x/claude"))).isEmpty
         then none
         else some (joinWith ":"
            (["/a"] ++ appendDedup ["/a"] (claudeExtraDirs none [] (some "/x/claude")))))
    ∧ "/opt/homebrew/bin" ∉ (["/a"] : List String) := by
  have h := build_claude_path_env_C9_amended "/a" none [] (some "/x/claude")
  refine ⟨h.1, ?_⟩
  have hmem : "/opt/homebrew/bin"
      ∈ appendDedup ((splitOnChar ':' "/a").filter (fun v => ¬ strIsEmpty v))
        (claudeExtraDirs none [] (some "/x/claude")) := by decide
  have hnot := h.2.2.1 "/opt/homebrew/bin" hmem
  simp only [splitOnChar, splitOnCharAux] at hnot
  intro hc
  simp at hc

/-- C7 counterexample: an unauthenticated connection sending a non-auth
request WITHOUT a numeric id receives no response at all (`build_error_response`
returns nothing when there is no id to echo), so the claim that any non-auth
request receives an unauthorized error response fails; the connection is
indeed left unsubscribed. -/
theorem handle_client_C7_counterexample :
    (handle_client_line (some "secret") (fun _ _ => .error "unused")
        (initClientConn (some "secret")) (.obj [("method", .str "thread/list")])).2 = []
    ∧ ((handle_client_line (some "secret") (fun _ _ => .error "unused")
        (initClientConn (some "secret")) (.obj [("method", .str "thread/list")])).1).subscribed
      = false :=
  ⟨rfl, rfl⟩

/-- C7 amended: on an unauthenticated connection with a configured token, a
non-auth request is answered with an `unauthorized` error echoed to its
numeric id — an id-less request gets no response — and the connection state
(including its non-subscription) is unchanged; an `auth` request with the
wrong token is answered with an `invalid token` error against its id and the
connection stays unauthenticated; an `auth` request with the correct token
makes the connection authenticated and subscribed. -/
theorem handle_client_C7_amended :
    ∀ (tok : String) (rpc : String → Json → Except String Json)
      (conn : ClientConn) (msg : Json),
      conn.authenticated = false →
      ((((msg.get "method").bind Json.asStr).getD "" ≠ "auth" →
        handle_client_line (some tok) rpc conn msg
          = (conn, build_error_response ((msg.get "id").bind Json.asNat) "unauthorized"))
      ∧ (((msg.get "method").bind Json.asStr).getD "" = "auth" →
        (parse_auth_token ((msg.get "params").getD .null)).getD "" ≠ tok →
        handle_client_line (some tok) rpc conn msg
          = (conn, build_error_response ((msg.get "id").bind Json.asNat) "invalid token"))
      ∧ (((msg.get "method").bind Json.asStr).getD "" = "auth" →
        (parse_auth_token ((msg.get "params").getD .null)).getD "" = tok →
        (handle_client_line (some tok) rpc conn msg).1
          = { authenticated := true, subscribed := true })) := by
  intro tok rpc conn msg hauth
  refine ⟨?_, ?_, ?_⟩
  · intro hm
    simp [handle_client_line, hauth, hm]
  · intro hm htok
    have htok' : tok ≠ (parse_auth_token ((msg.get "params").getD .null)).getD "" :=
      fun h => htok h.symm
    simp [handle_client_line, hauth, hm, htok']
  · intro hm htok
    simp [handle_client_line, hauth, hm, htok]

/-- Witness for the amended C7 on a concrete handshake: a rejected non-auth
request with an id, then a successful auth. -/
theorem handle_client_C7_amended_witness :
    handle_client_line (some "secret") (fun _ _ => .error "unused")
        (initClientConn (some "secret"))
        (.obj [("id", .num 1), ("method", .str "thread/list")])
      = (initClientConn (some "secret"), [RpcOut.errorResp 1 "unauthorized"])
    ∧ (handle_client_line (some "secret") (fun _ _ => .error "unused")
        (initClientConn (some "secret"))
        (.obj [("id", .num 2), ("method", .str "auth"), ("params", .str "secret")])).1
      = { authenticated := true, subscribed := true } := by
  have h1 := (handle_client_C7_amended "secret" (fun _ _ => .error "unused")
    (initClientConn (some "secret"))
    (.obj [("id", .num 1), ("method", .str "thread/list")]) (by rfl)).1 (by decide)
  have h2 := (handle_client_C7_amended "secret" (fun _ _ => .error "unused")
    (initClientConn (some "secret"))
    (.obj [("id", .num 2), ("method", .str "auth"), ("params", .str "secret")])
    (by rfl)).2.2 (by rfl) (by rfl)
  exact ⟨by rw [h1]; rfl, h2⟩

theorem turnScan_append (xs ys : List Event) :
    ∀ b, turnScan b (xs ++ ys) = (turnScan b xs).bind fun b' => turnScan b' ys := by
  induction xs with
  | nil => intro b; simp [turnScan]
  | cons e rest ih =>
    intro b
    cases e <;> simp only [List.cons_append, turnScan] <;>
      first
        | exact ih b
        | (cases b <;> simp [ih])

theorem turnScan_neutral (evs : List Event)
    (h : ∀ e ∈ evs, e.isTurnEvent = false) : ∀ b, turnScan b evs = some b := by
  induction evs with
  | nil => intro b; rfl
  | cons e rest ih =>
    intro b
    have he := h e (by simp)
    have hrest : ∀ e ∈ rest, e.isTurnEvent = false := fun e hm => h e (by simp [hm])
    cases e <;> simp_all [Event.isTurnEvent, turnScan, ih hrest]

theorem turnScan_comp {b b' : Bool} {xs : List Event} (ys : List Event)
    (hx : turnScan b xs = some b') (hy : ∀ e ∈ ys, e.isTurnEvent = false) :
    turnScan b (xs ++ ys) = some b' := by
  rw [turnScan_append, hx]
  exact turnScan_neutral ys hy b'

theorem turnCompleted_not_neutral {tid : String} {evs : List Event}
    (hmem : Event.turnCompleted tid ∈ evs)
    (h : ∀ e ∈ evs, e.isTurnEvent = false) : False := by
  have := h _ hmem
  simp [Event.isTurnEvent] at this

theorem assistant_block_step_neutral (st : ReaderState) (entry : Json) :
    ∀ e ∈ (assistant_block_step st entry).2, e.isTurnEvent = false := by
  intro e he
  simp only [assistant_block_step] at he
  repeat' split at he
  all_goals
    simp only [List.mem_append, List.mem_cons, List.mem_singleton,
      List.not_mem_nil, or_false, false_or] at he
  all_goals
    first
      | exact he.elim
      | (rcases he with rfl | rfl <;> rfl)

theorem assistant_block_step_active (st : ReaderState) (entry : Json) :
    ((assistant_block_step st entry).1).turn_active = st.turn_active := by
  simp only [assistant_block_step]
  repeat' split
  all_goals rfl

theorem assistant_blocks_neutral (blocks : List Json) :
    ∀ (st : ReaderState) (e : Event),
      e ∈ (assistant_blocks st blocks).2 → e.isTurnEvent = false := by
  induction blocks with
  | nil => intro st e he; simp [assistant_blocks] at he
  | cons entry rest ih =>
    intro st e he
    simp only [assistant_blocks, List.mem_append] at he
    rcases he with he | he
    · exact assistant_block_step_neutral st entry e he
    · exact ih (assistant_block_step st entry).1 e he

theorem assistant_blocks_active (blocks : List Json) :
    ∀ (st : ReaderState),
      ((assistant_blocks st blocks).1).turn_active = st.turn_active := by
  induction blocks with
  | nil => intro st; rfl
  | cons entry rest ih =>
    intro st
    simp only [assistant_blocks]
    rw [ih (assistant_block_step st entry).1, assistant_block_step_active st entry]

theorem delta_events_neutral (st : ReaderState) (text : String) :
    ∀ e ∈ (delta_events st text).2, e.isTurnEvent = false := by
  intro e he
  simp only [delta_events] at he
  repeat' split at he
  all_goals
    first
      | exact absurd he (List.not_mem_nil e)
      | (simp only [List.mem_singleton] at he
         subst he
         rfl)

theorem delta_events_active (st : ReaderState) (text : String) :
    ((delta_events st text).1).turn_active = st.turn_active := by
  simp only [delta_events]
  repeat' split
  all_goals rfl

theorem assistant_message_events_neutral (st : ReaderState) (message : Json) :
    ∀ e ∈ (assistant_message_events st message).2, e.isTurnEvent = false := by
  intro e he
  simp only [assistant_message_events] at he
  simp only [List.mem_append] at he
  rcases he with he | he
  · rcases hc : (message.get "content").bind Json.asArr with _ | content <;>
      simp only [hc] at he
    · exact absurd he (List.not_mem_nil e)
    · exact assistant_blocks_neutral content _ e he
  · exact delta_events_neutral _ _ e he

theorem assistant_message_events_active (st : ReaderState) (message : Json) :
    ((assistant_message_events st message).1).turn_active = st.turn_active := by
  simp only [assistant_message_events]
  rcases hu : message.get "usage" with _ | u <;>
    simp only [hu, delta_events_active] <;>
    rcases hc : (message.get "content").bind Json.asArr with _ | content <;>
      simp only [hc, assistant_blocks_active] <;>
      rcases hm : (message.get "model").bind Json.asStr with _ | m <;>
        simp only [hm] <;>
        first
          | rfl
          | (split <;> rfl)

theorem assistant_body_neutral (st : ReaderState) (value : Json) :
    ∀ e ∈ (assistant_body st value).2, e.isTurnEvent = false := by
  intro e he
  simp only [assistant_body] at he
  rcases hm : value.get "message" with _ | message
  · simp only [hm] at he
    exact absurd he (List.not_mem_nil e)
  · simp only [hm] at he
    exact assistant_message_events_neutral _ message e he

theorem assistant_body_active (st : ReaderState) (value : Json) :
    ((assistant_body st value).1).turn_active = st.turn_active := by
  simp only [assistant_body]
  rcases hm : value.get "message" with _ | message
  all_goals simp only [hm]
  · rcases hu : (value.get "uuid").bind Json.asStr with _ | uuid
    all_goals simp only [hu]
    all_goals first
      | rfl
      | (split <;> rfl)
  · rw [assistant_message_events_active]
    rcases hu : (value.get "uuid").bind Json.asStr with _ | uuid
    all_goals simp only [hu]
    all_goals first
      | rfl
      | (split <;> rfl)

theorem assistant_turn_start_scan (u : Nat → String) (st : ReaderState) :
    turnScan st.turn_active (assistant_turn_start u st).2
      = some ((assistant_turn_start u st).1.turn_active) := by
  simp only [assistant_turn_start]
  by_cases h : st.turn_active = true
  · simp [h, turnScan]
  · rcases hp : st.pending_turn_id with _ | tid <;> simp [h, hp, turnScan]

theorem handle_assistant_line_scan (u : Nat → String) (st : ReaderState)
    (value : Json) :
    turnScan st.turn_active (handle_assistant_line u st value).2
      = some ((handle_assistant_line u st value).1.turn_active) := by
  simp only [handle_assistant_line]
  rw [assistant_body_active]
  exact turnScan_comp _ (assistant_turn_start_scan u st)
    (assistant_body_neutral _ value)

theorem user_result_step_neutral (thread_id : String) (value : Json)
    (st : ReaderState) (index : Nat) (entry : Json) :
    ∀ e ∈ (user_result_step thread_id value st index entry).2,
      e.isTurnEvent = false := by
  intro e he
  simp only [user_result_step] at he
  repeat' split at he
  all_goals
    simp only [List.mem_append, List.mem_cons, List.mem_singleton,
      List.not_mem_nil, or_false, false_or] at he
  all_goals
    first
      | exact he.elim
      | (rcases he with rfl | rfl <;> rfl)

theorem user_result_step_active (thread_id : String) (value : Json)
    (st : ReaderState) (index : Nat) (entry : Json) :
    ((user_result_step thread_id value st index entry).1).turn_active
      = st.turn_active := by
  simp only [user_result_step]
  repeat' split
  all_goals rfl

theorem user_results_neutral (thread_id : String) (value : Json)
    (content : List Json) :
    ∀ (st : ReaderState) (index : Nat) (e : Event),
      e ∈ (user_results thread_id value st index content).2 →
      e.isTurnEvent = false := by
  induction content with
  | nil => intro st index e he; simp [user_results] at he
  | cons entry rest ih =>
    intro st index e he
    simp only [user_results, List.mem_append] at he
    rcases he with he | he
    · exact user_result_step_neutral thread_id value st index entry e he
    · exact ih _ _ e he

theorem user_results_active (thread_id : String) (value : Json)
    (content : List Json) :
    ∀ (st : ReaderState) (index : Nat),
      ((user_results thread_id value st index content).1).turn_active
        = st.turn_active := by
  induction content with
  | nil => intro st index; rfl
  | cons entry rest ih =>
    intro st index
    simp only [user_results]
    rw [ih, user_result_step_active]

theorem handle_user_line_neutral (thread_id : String) (st : ReaderState)
    (value : Json) :
    ∀ e ∈ (handle_user_line thread_id st value).2, e.isTurnEvent = false := by
  intro e he
  simp only [handle_user_line] at he
  repeat' split at he
  all_goals
    first
      | exact absurd he (List.not_mem_nil e)
      | exact user_results_neutral thread_id value _ _ _ e he

theorem handle_user_line_scan (thread_id : String) (st : ReaderState)
    (value : Json) :
    turnScan st.turn_active (handle_user_line thread_id st value).2
      = some ((handle_user_line thread_id st value).1.turn_active) := by
  have hact : ((handle_user_line thread_id st value).1).turn_active
      = st.turn_active := by
    simp only [handle_user_line]
    repeat' split
    all_goals
      first
        | rfl
        | rw [user_results_active]
  rw [hact]
  exact turnScan_neutral _ (handle_user_line_neutral thread_id st value)
    st.turn_active

theorem result_denials_active (thread_id : String) (items : List Json) :
    ∀ (st : ReaderState) (index : Nat),
      ((result_denials thread_id st index items).1).turn_active
        = st.turn_active := by
  induction items with
  | nil => intro st index; rfl
  | cons entry rest ih =>
    intro st index
    simp only [result_denials]
    repeat' split
    all_goals rw [ih]

theorem result_close_scan (st : ReaderState) :
    turnScan st.turn_active (result_close st).2
      = some ((result_close st).1.turn_active) := by
  by_cases h : st.turn_active = true
  · rcases hu : st.last_usage with _ | u
    · simp [result_close, h, hu, turnScan]
    · rcases hf : format_token_usage u st.last_model_usage with _ | usage <;>
        simp [result_close, h, hu, hf, turnScan]
  · simp [result_close, h, turnScan]

theorem result_tail_scan (st0 st3 : ReaderState) (c : Nat) (tid : String)
    (ha : st3.turn_active = st0.turn_active) :
    turnScan st0.turn_active
        ((if c = 0 then [] else [Event.permissionDenied tid]) ++ (result_close st3).2)
      = some ((result_close st3).1.turn_active) := by
  rw [turnScan_append]
  rw [turnScan_neutral (if c = 0 then [] else [Event.permissionDenied tid]) ?_]
  · simp only [Option.some_bind]
    rw [← ha]
    exact result_close_scan st3
  · intro e he
    split at he
    · exact absurd he (List.not_mem_nil e)
    · simp only [List.mem_singleton] at he
      subst he
      rfl

theorem handle_result_line_scan (thread_id : String) (st : ReaderState)
    (value : Json) :
    turnScan st.turn_active (handle_result_line thread_id st value).2
      = some ((handle_result_line thread_id st value).1.turn_active) := by
  simp only [handle_result_line]
  rcases h1 : value.get "usage" with _ | u <;>
    rcases h2 : value.get "modelUsage" with _ | mu <;>
    rcases h3 : (value.getOr "permission_denials" "permissionDenials").bind Json.asArr
      with _ | items <;>
    simp only [h1, h2, h3]
  all_goals
    first
      | exact result_tail_scan st _ _ _
          (by first
            | rfl
            | exact result_denials_active thread_id items _ 0)
      | exact result_tail_scan st _ 0 "" (by rfl)

theorem process_line_scan (uuidGen : Nat → String) (thread_id : String)
    (st : ReaderState) (value : Json) :
    turnScan st.turn_active (process_line uuidGen thread_id st value).2
      = some ((process_line uuidGen thread_id st value).1.turn_active) := by
  simp only [process_line]
  repeat' split
  all_goals
    first
      | exact handle_assistant_line_scan uuidGen st value
      | exact handle_user_line_scan thread_id st value
      | exact handle_result_line_scan thread_id st value
      | simp [turnScan]

theorem read_persistent_stdout_scan (uuidGen : Nat → String) (thread_id : String) :
    ∀ (lines : List (Option Json)) (st : ReaderState),
      turnScan st.turn_active
        (read_persistent_stdout uuidGen thread_id st lines).2 = some false := by
  intro lines
  induction lines with
  | nil =>
    intro st
    by_cases h : st.turn_active = true <;>
      simp [read_persistent_stdout, h, turnScan]
  | cons o rest ih =>
    intro st
    cases o with
    | none =>
      simp only [read_persistent_stdout]
      exact ih st
    | some v =>
      simp only [read_persistent_stdout]
      rw [turnScan_append, process_line_scan]
      simp only [Option.some_bind]
      exact ih _

theorem turnCompleted_only_result (uuidGen : Nat → String) (thread_id : String)
    (st : ReaderState) (value : Json) (tid : String)
    (hmem : Event.turnCompleted tid ∈ (process_line uuidGen thread_id st value).2) :
    (value.get "type").bind Json.asStr = some "result" := by
  by_cases hr : ((value.get "type").bind Json.asStr).getD "" = "result"
  · rcases ho : (value.get "type").bind Json.asStr with _ | s
    · rw [ho] at hr
      simp at hr
    · rw [ho] at hr
      simp only [Option.getD] at hr
      rw [hr]
  · exfalso
    simp only [process_line] at hmem
    repeat' split at hmem
    all_goals
      first
        | exact absurd hmem (List.not_mem_nil _)
        | exact hr (by assumption)
        | (simp at hmem)
        | (simp only [handle_assistant_line, List.mem_append] at hmem
           rcases hmem with hm | hm
           · simp only [assistant_turn_start] at hm
             repeat' split at hm
             all_goals simp at hm
           · exact turnCompleted_not_neutral hm (assistant_body_neutral _ value))
        | exact turnCompleted_not_neutral hmem
            (handle_user_line_neutral thread_id st value)

/-- C5: along the events emitted by one stdout loop, the
`turn/started`…`turn/completed` brackets are well-formed and every turn is
closed by the end of the stream (`turnScan` succeeds and finishes closed, so
a second `turn/started` never appears before the previous `turn/completed`);
`turn/completed` is emitted by a line only when that line is result-typed;
and reaching end-of-file or a read error with a turn open emits exactly the
synthetic `turn/completed` before the loop exits. -/
theorem read_persistent_stdout_C5 :
    ∀ (uuidGen : Nat → String) (thread_id : String) (st : ReaderState)
      (lines : List (Option Json)),
      turnScan st.turn_active
        (read_persistent_stdout uuidGen thread_id st lines).2 = some false
    ∧ (∀ (value : Json) (tid : String),
        Event.turnCompleted tid ∈ (process_line uuidGen thread_id st value).2 →
        (value.get "type").bind Json.asStr = some "result")
    ∧ (st.turn_active = true →
        read_persistent_stdout uuidGen thread_id st []
          = (st, [Event.turnCompleted st.current_turn_id])) := by
  intro uuidGen thread_id st lines
  refine ⟨read_persistent_stdout_scan uuidGen thread_id lines st,
    fun value tid hmem => turnCompleted_only_result uuidGen thread_id st value tid hmem,
    fun h => ?_⟩
  simp [read_persistent_stdout, h]

/-- Witness for C5: a result line closing the open turn of a concretely
initialized reader, and the synthetic completion at end-of-stream. -/
theorem read_persistent_stdout_C5_witness :
    ((Json.obj [("type", Json.str "result")]).get "type").bind Json.asStr
      = some "result"
    ∧ read_persistent_stdout (fun _ => "u") "t"
        (initReaderState "i" none) [some (Json.obj [("type", Json.str "result")])]
      = (initReaderState "i" none, []) := by
  have h := read_persistent_stdout_C5 (fun _ => "u") "t"
    { initReaderState "i" none with turn_active := true }
    [some (Json.obj [("type", Json.str "result")])]
  refine ⟨?_, by rfl⟩
  refine h.2.1 (Json.obj [("type", Json.str "result")]) "i" ?_
  show Event.turnCompleted "i"
      ∈ (process_line (fun _ => "u") "t"
          { initReaderState "i" none with turn_active := true }
          (Json.obj [("type", Json.str "result")])).2
  have hevs : (process_line (fun _ => "u") "t"
      { initReaderState "i" none with turn_active := true }
      (Json.obj [("type", Json.str "result")])).2
      = [Event.itemCompletedAgentMessage "i-assistant" "" none,
         Event.turnCompleted "i"] := by rfl
  rw [hevs]
  simp

/-- C10: a `send_user_message` call whose built prompt is blank fails with
the empty-user-message error before any session is created, restarted or
written to, leaving the workspace state unchanged. -/
theorem send_user_message_C10 :
    ∀ (killRes : Nat → KillRes) (env : SpawnEnv) (fresh : String)
      (st : WorkspaceSession) (thread text : String) (model access : Option String)
      (images : Option (List String)),
      strIsEmpty (strTrim (build_prompt_with_images text images)) = true →
      send_user_message killRes env fresh st thread text model access images
        = (.error "empty user message", st, []) := by
  intro killRes env fresh st thread text model access images h
  simp [send_user_message, h]

/-- Witness for C10 on a whitespace-only message with no images. -/
theorem send_user_message_C10_witness :
    send_user_message (fun _ => KillRes.ok) ⟨0, 0⟩ "turn" ⟨[], []⟩ "t" " "
        none none none
      = (.error "empty user message", ⟨[], []⟩, []) :=
  send_user_message_C10 (fun _ => KillRes.ok) ⟨0, 0⟩ "turn" ⟨[], []⟩ "t" " "
    none none none (by rfl)

end CCM
